import Mathlib

/- Shallow embedding of the harper-rate-limit shim: key derivation with
proxy-trust policy, the rate-limit gate, the auxiliary peek and reset
operations, and the method wrapper. The repository ships only its test
suite; every operation below is modelled from the specification and is
checked against the behaviours the tests pin down. The external
point-consumption capability is modelled as per-key accounting over an
association list, frozen at the start of its window (no elapsed time). -/

namespace HarperRateLimit

/-- A request as consumed by the shim: a mapping of lower-cased header names
to values, optional transport-level address fields (`ip` and
`connection.remoteAddress`), and an optional session-identified user. -/
structure Request where
  headers : List (String × String) := []
  ip : Option String := none
  remoteAddress : Option String := none
  sessionUser : Option String := none
  deriving DecidableEq

/-- Modelled from the spec: the process-wide security configuration read on
every key derivation. -/
structure SecurityConfig where
  trustProxy : Bool := false
  trustedProxyDepth : Nat := 0
  deriving DecidableEq

/-- Modelled from the spec: the rate-limit configuration of a capability
instance (the storage key-prefix only namespaces the external store and is
omitted). -/
structure RateLimiterConfig where
  points : Nat := 1000
  duration : Nat := 60
  blockDuration : Nat := 0
  deriving DecidableEq

/-- Modelled from the spec: the usage shape produced by the capability on
both the success and the rejection path. -/
structure UsageResult where
  remainingPoints : Nat
  msBeforeNext : Nat
  deriving DecidableEq

/-- Per-call options of the gate: an optional custom key generator, user
based keying, and the points to consume (default 1). -/
structure Options where
  keyGenerator : Option (Request → String) := none
  byUser : Bool := false
  pointsToConsume : Nat := 1

/-- Modelled from the spec: the failure surface exposed on rejection. -/
structure RateLimitExceeded where
  message : String
  statusCode : Nat
  retryAfter : Nat
  deriving DecidableEq

/-- First value recorded under a key in an association list, none when the
key has no entry. -/
def assocLookup (key : String) : List (String × α) → Option α
  | [] => none
  | (k, v) :: rest => if k = key then some v else assocLookup key rest

/-- Modelled from the spec: the transport-layer address, `request.ip` or the
connection-level address field, or the literal string "unknown" if absent. -/
def transportAddress (req : Request) : String :=
  match req.ip with
  | some a => a
  | none =>
    match req.remoteAddress with
    | some a => a
    | none => "unknown"

/-- Split a character list on a separator; always returns at least one
chunk, mirroring string splitting. -/
def splitChars (sep : Char) : List Char → List (List Char)
  | [] => [[]]
  | c :: rest =>
    let r := splitChars sep rest
    if c = sep then [] :: r
    else
      match r with
      | [] => [[c]]
      | hd :: tl => (c :: hd) :: tl

/-- Remove leading and trailing whitespace from a character list. -/
def trimChars (l : List Char) : List Char :=
  ((l.dropWhile Char.isWhitespace).reverse.dropWhile Char.isWhitespace).reverse

/-- Modelled from the spec: split a header value on commas and trim each
entry. -/
def splitTrim (s : String) : List String :=
  (splitChars ',' s.data).map (fun l => String.mk (trimChars l))

/-- Modelled from the spec: from an optional X-Forwarded-For value, select
the entry at zero-based index `count - 1 - depth` after splitting on commas
and trimming; none when the index falls outside `[0, count)` or the selected
entry is empty. -/
def selectForwarded (depth : Nat) : Option String → Option String
  | none => none
  | some xff =>
    let parts := splitTrim xff
    let count := parts.length
    let idx : Int := (count : Int) - 1 - (depth : Int)
    if 0 ≤ idx ∧ idx < (count : Int) then
      let entry := parts.getD idx.toNat ""
      if entry = "" then none else some entry
    else
      none

/-- Modelled from the spec: when the forwarded chain yields nothing, use the
X-Real-IP header verbatim if present, else the transport-layer address. -/
def headerFallback (req : Request) : String :=
  match assocLookup "x-real-ip" req.headers with
  | some real => real
  | none => transportAddress req

/-- Modelled from the spec: client IP resolution. Proxy headers are
consulted only when `trustProxy` is true. -/
def clientIp (sec : SecurityConfig) (req : Request) : String :=
  if sec.trustProxy then
    match selectForwarded sec.trustedProxyDepth (assocLookup "x-forwarded-for" req.headers) with
    | some entry => entry
    | none => headerFallback req
  else
    transportAddress req

/-- Modelled from the spec: keys are truncated to their first 256
characters, not hashed. -/
def truncateKey (s : String) : String :=
  String.mk (s.data.take 256)

/-- Modelled from the spec: key derivation. Precedence: custom key
generator, then user-based keying when a session user is present, then the
"ip:" scheme; every branch truncates. -/
def deriveKey (sec : SecurityConfig) (req : Request) (opts : Options) : String :=
  match opts.keyGenerator with
  | some gen => truncateKey (gen req)
  | none =>
    if opts.byUser then
      match req.sessionUser with
      | some u => truncateKey ("user:" ++ u)
      | none => truncateKey ("ip:" ++ clientIp sec req)
    else
      truncateKey ("ip:" ++ clientIp sec req)

/-- Modelled from the spec: the capability's per-key accounting, an
association list from key to consumed points, plus the instance
configuration. -/
structure LimiterState where
  config : RateLimiterConfig
  used : List (String × Nat)
  deriving DecidableEq

/-- Remove every entry recorded under a key. -/
def eraseKey (key : String) : List (String × Nat) → List (String × Nat)
  | [] => []
  | (k, v) :: rest =>
    if k = key then eraseKey key rest else (k, v) :: eraseKey key rest

/-- Record a value under a key, replacing any previous entry. -/
def setKey (key : String) (v : Nat) (l : List (String × Nat)) : List (String × Nat) :=
  (key, v) :: eraseKey key l

/-- Points consumed so far under a key (0 when the key has no record). -/
def usedPoints (st : LimiterState) (key : String) : Nat :=
  (assocLookup key st.used).getD 0

/-- Modelled from the spec: the capability's consume operation. Success when
the accumulated consumption stays within the quota; the attempt is recorded
on the rejection path as well, so rejected calls are also tracked. -/
def consume (st : LimiterState) (key : String) (pts : Nat) :
    Except UsageResult UsageResult × LimiterState :=
  let total := usedPoints st key + pts
  let usage : UsageResult :=
    { remainingPoints := st.config.points - total
      msBeforeNext := st.config.duration * 1000 }
  let st1 : LimiterState := { st with used := setKey key total st.used }
  if total ≤ st.config.points then (Except.ok usage, st1)
  else (Except.error usage, st1)

/-- Modelled from the spec: the capability's read operation, null when the
key has no recorded usage. -/
def capGet (st : LimiterState) (key : String) : Option UsageResult :=
  match assocLookup key st.used with
  | none => none
  | some u =>
    some
      { remainingPoints := st.config.points - u
        msBeforeNext := st.config.duration * 1000 }

/-- Modelled from the spec: the capability's delete operation. -/
def capDelete (st : LimiterState) (key : String) : LimiterState :=
  { st with used := eraseKey key st.used }

/-- Modelled from the spec: on rejection, construct the RateLimitExceeded
signal with the fixed message, classification code 429, and
`retryAfter = ceil(msBeforeNext / 1000)` seconds. -/
def toRateLimitExceeded (rejection : UsageResult) : RateLimitExceeded :=
  { message := "Too many requests. Please try again later."
    statusCode := 429
    retryAfter := (rejection.msBeforeNext + 999) / 1000 }

/-- Modelled from the spec: the Gate. Derive the key, consume the configured
points from the capability, return the usage unchanged on success, and fail
with the RateLimitExceeded signal on rejection. -/
def checkRateLimit (sec : SecurityConfig) (st : LimiterState) (req : Request)
    (opts : Options) : Except RateLimitExceeded UsageResult × LimiterState :=
  let pr := consume st (deriveKey sec req opts) opts.pointsToConsume
  (Except.mapError toRateLimitExceeded pr.1, pr.2)

/-- Modelled from the spec (tests): `rateLimit` is exported as an alias of
the gate; its body is written out independently to be compared with
`checkRateLimit`. -/
def rateLimit (sec : SecurityConfig) (st : LimiterState) (req : Request)
    (opts : Options) : Except RateLimitExceeded UsageResult × LimiterState :=
  let pr := consume st (deriveKey sec req opts) opts.pointsToConsume
  (Except.mapError toRateLimitExceeded pr.1, pr.2)

/-- The shape returned by the peek operation in the tests: remaining points
and milliseconds until reset. -/
structure RemainingInfo where
  remaining : Nat
  resetMs : Nat
  deriving DecidableEq

/-- Modelled from the spec: peek reads current usage for the derived key
without consuming; absent when the capability has no record. The unchanged
limiter state is returned alongside, mirroring the effectful call shape. -/
def getRemainingPoints (sec : SecurityConfig) (st : LimiterState) (req : Request)
    (opts : Options) : Option RemainingInfo × LimiterState :=
  match capGet st (deriveKey sec req opts) with
  | none => (none, st)
  | some u => (some { remaining := u.remainingPoints, resetMs := u.msBeforeNext }, st)

/-- Modelled from the spec: reset removes all recorded usage for the derived
key. -/
def resetRateLimit (sec : SecurityConfig) (st : LimiterState) (req : Request)
    (opts : Options) : LimiterState :=
  capDelete st (deriveKey sec req opts)

/-- The five method names the wrapper knows about. -/
inductive Method where
  | get
  | post
  | put
  | delete
  | patch
  deriving DecidableEq

/-- Modelled from the spec: a resource exposes up to five named operations;
each takes the request and transforms handler-local state, producing a
response. A missing operation is `none`. -/
structure Resource (σ α : Type) where
  handler : Method → Option (Request → σ → α × σ)

/-- Wrapper configuration: the set of gated method names (default all five)
and the options handed to the gate. -/
structure WrapOptions where
  methods : List Method := [Method.get, Method.post, Method.put, Method.delete, Method.patch]
  gateOptions : Options := {}

/-- Delegation to the original handler with no gate: the response when the
method exists, `none` when it does not, with the limiter state untouched. -/
def passThroughCall (res : Resource σ α) (m : Method) (req : Request)
    (st : LimiterState) (s : σ) :
    Except RateLimitExceeded (Option α) × LimiterState × σ :=
  match res.handler m with
  | none => (Except.ok none, st, s)
  | some f =>
    let pr := f req s
    (Except.ok (some pr.1), st, pr.2)

/-- Modelled from the spec: the Method Wrapper. A configured method runs the
gate first: on rejection the same signal is the failure and the handler body
never runs; on success the original handler runs when it exists (the check
fires even when the base type lacks the method). Methods not configured pass
through unmodified. -/
def wrappedCall (sec : SecurityConfig) (wopts : WrapOptions) (res : Resource σ α)
    (m : Method) (req : Request) (st : LimiterState) (s : σ) :
    Except RateLimitExceeded (Option α) × LimiterState × σ :=
  if m ∈ wopts.methods then
    match checkRateLimit sec st req wopts.gateOptions with
    | (Except.error e, st1) => (Except.error e, st1, s)
    | (Except.ok _, st1) =>
      match res.handler m with
      | none => (Except.ok none, st1, s)
      | some f =>
        let pr := f req s
        (Except.ok (some pr.1), st1, pr.2)
  else
    passThroughCall res m req st s

/-- Iterate the wrapped call of one method on one request, threading the
limiter state and the handler-local state. -/
def callTimes (sec : SecurityConfig) (wopts : WrapOptions) (res : Resource σ α)
    (m : Method) (req : Request) : Nat → LimiterState → σ → LimiterState × σ
  | 0, st, s => (st, s)
  | n + 1, st, s =>
    let r := wrappedCall sec wopts res m req st s
    callTimes sec wopts res m req n r.2.1 r.2.2

/-- A key has no record after all its entries are erased. -/
theorem assocLookup_eraseKey_self (key : String) (l : List (String × Nat)) :
    assocLookup key (eraseKey key l) = none := by
  induction l with
  | nil => rfl
  | cons p rest ih =>
    obtain ⟨k, v⟩ := p
    by_cases h : k = key <;> simp [eraseKey, assocLookup, h, ih]

/-- Reading a key right after recording it yields the recorded value. -/
theorem assocLookup_setKey_self (key : String) (v : Nat) (l : List (String × Nat)) :
    assocLookup key (setKey key v l) = some v := by
  simp [setKey, assocLookup]

/-- The limiter state after a consume: the configuration is kept and the
key's record is the previous consumption plus the requested points. -/
theorem consume_snd (st : LimiterState) (key : String) (pts : Nat) :
    (consume st key pts).2 =
      { config := st.config, used := setKey key (usedPoints st key + pts) st.used } := by
  simp only [consume]
  split <;> rfl

/-- Consumption under a key accumulates. -/
theorem usedPoints_consume_self (st : LimiterState) (key : String) (pts : Nat) :
    usedPoints (consume st key pts).2 key = usedPoints st key + pts := by
  rw [consume_snd]
  simp [usedPoints, assocLookup_setKey_self]

/-- A consume within the quota succeeds with the remaining points and the
window length in milliseconds. -/
theorem consume_fst_of_le (st : LimiterState) (key : String) (pts : Nat)
    (h : usedPoints st key + pts ≤ st.config.points) :
    (consume st key pts).1 =
      Except.ok
        { remainingPoints := st.config.points - (usedPoints st key + pts)
          msBeforeNext := st.config.duration * 1000 } := by
  simp [consume, h]

/-- A consume beyond the quota is rejected, carrying the same usage shape. -/
theorem consume_fst_of_gt (st : LimiterState) (key : String) (pts : Nat)
    (h : st.config.points < usedPoints st key + pts) :
    (consume st key pts).1 =
      Except.error
        { remainingPoints := st.config.points - (usedPoints st key + pts)
          msBeforeNext := st.config.duration * 1000 } := by
  have hn : ¬ usedPoints st key + pts ≤ st.config.points := by omega
  simp [consume, hn]

/-- The gate, written out: the mapped consume outcome and the consume
state. -/
theorem checkRateLimit_eq (sec : SecurityConfig) (st : LimiterState) (req : Request)
    (opts : Options) :
    checkRateLimit sec st req opts =
      (Except.mapError toRateLimitExceeded
        (consume st (deriveKey sec req opts) opts.pointsToConsume).1,
       (consume st (deriveKey sec req opts) opts.pointsToConsume).2) := rfl

/-- Truncated keys have at most 256 characters. -/
theorem truncateKey_length (s : String) : (truncateKey s).length ≤ 256 := by
  show (s.data.take 256).length ≤ 256
  simp [List.length_take]

/-- Every branch of key derivation truncates. -/
theorem deriveKey_length (sec : SecurityConfig) (r : Request) (o : Options) :
    (deriveKey sec r o).length ≤ 256 := by
  cases hg : o.keyGenerator with
  | none =>
    cases hb : o.byUser with
    | false => simpa [deriveKey, hg, hb] using truncateKey_length ("ip:" ++ clientIp sec r)
    | true =>
      cases hu : r.sessionUser with
      | none => simpa [deriveKey, hg, hb, hu] using truncateKey_length ("ip:" ++ clientIp sec r)
      | some u => simpa [deriveKey, hg, hb, hu] using truncateKey_length ("user:" ++ u)
  | some g => simpa [deriveKey, hg] using truncateKey_length (g r)

/-- Claim C1: with trustProxy=false and no custom key generator, the derived
key — and hence the gate's bucket selection — is the same for any two
requests agreeing on the transport-level fields and session user, whatever
their proxy headers say. -/
theorem deriveKey_ignores_headers_when_untrusted
    (sec : SecurityConfig) (r1 r2 : Request) (opts : Options) (st : LimiterState)
    (htp : sec.trustProxy = false)
    (hgen : opts.keyGenerator = none)
    (hip : r1.ip = r2.ip)
    (hra : r1.remoteAddress = r2.remoteAddress)
    (hsu : r1.sessionUser = r2.sessionUser) :
    deriveKey sec r1 opts = deriveKey sec r2 opts ∧
    checkRateLimit sec st r1 opts = checkRateLimit sec st r2 opts := by
  have hkey : deriveKey sec r1 opts = deriveKey sec r2 opts := by
    simp [deriveKey, hgen, clientIp, htp, transportAddress, hip, hra, hsu]
  exact ⟨hkey, by simp [checkRateLimit, hkey]⟩

/-- Claim C1 witness: two requests from the same transport address but with
different X-Forwarded-For values share a derived key when the proxy is not
trusted. -/
theorem deriveKey_ignores_headers_when_untrusted_w :
    deriveKey {} { headers := [("x-forwarded-for", "1.2.3.4")], ip := some "192.168.50.1" } {} =
      deriveKey {} { headers := [("x-forwarded-for", "5.6.7.8")], ip := some "192.168.50.1" } {} :=
  (deriveKey_ignores_headers_when_untrusted {}
    { headers := [("x-forwarded-for", "1.2.3.4")], ip := some "192.168.50.1" }
    { headers := [("x-forwarded-for", "5.6.7.8")], ip := some "192.168.50.1" }
    {} ⟨{}, []⟩ rfl rfl rfl rfl rfl).1

/-- Claim C6: every derived key has at most 256 characters; a custom
generator's output is truncated to its first 256 characters, not hashed; two
raw keys sharing their first 256 characters land in the same bucket. -/
theorem deriveKey_truncation
    (sec : SecurityConfig) (r1 r2 : Request) (o1 o2 : Options)
    (g1 g2 : Request → String)
    (h1 : o1.keyGenerator = some g1) (h2 : o2.keyGenerator = some g2) :
    (∀ (s : SecurityConfig) (r : Request) (o : Options), (deriveKey s r o).length ≤ 256) ∧
    deriveKey sec r1 o1 = String.mk ((g1 r1).data.take 256) ∧
    ((g1 r1).data.take 256 = (g2 r2).data.take 256 →
      deriveKey sec r1 o1 = deriveKey sec r2 o2) := by
  refine ⟨deriveKey_length, by simp [deriveKey, h1, truncateKey], ?_⟩
  intro ht
  simp [deriveKey, h1, h2, truncateKey, ht]

set_option maxRecDepth 4000 in
/-- Claim C6 witness: raw keys of 500 and 300 repeated characters agree on
their first 256 characters and therefore derive the same truncated key. -/
theorem deriveKey_truncation_w :
    deriveKey {} {} { keyGenerator := some fun _ => String.mk (List.replicate 500 'x') } =
      deriveKey {} {} { keyGenerator := some fun _ => String.mk (List.replicate 300 'x') } :=
  (deriveKey_truncation {} {} {}
    { keyGenerator := some fun _ => String.mk (List.replicate 500 'x') }
    { keyGenerator := some fun _ => String.mk (List.replicate 300 'x') }
    (fun _ => String.mk (List.replicate 500 'x'))
    (fun _ => String.mk (List.replicate 300 'x')) rfl rfl).2.2 (by decide)

/-- Claim C9: a request with no ip field, no connection-level address and no
proxy headers derives exactly the key "ip:unknown", and the gate completes
with either a usage result or the RateLimitExceeded signal — no other
failure. -/
theorem missing_ip_unknown_key
    (sec : SecurityConfig) (st : LimiterState) (req : Request) (opts : Options)
    (hip : req.ip = none) (hra : req.remoteAddress = none)
    (hxff : assocLookup "x-forwarded-for" req.headers = none)
    (hxri : assocLookup "x-real-ip" req.headers = none)
    (hgen : opts.keyGenerator = none) (hbu : opts.byUser = false) :
    deriveKey sec req opts = "ip:unknown" ∧
    ((∃ u, (checkRateLimit sec st req opts).1 = Except.ok u) ∨
     (∃ e, (checkRateLimit sec st req opts).1 = Except.error e ∧
       e.message = "Too many requests. Please try again later." ∧ e.statusCode = 429)) := by
  have hci : clientIp sec req = "unknown" := by
    cases htp : sec.trustProxy <;>
      simp [clientIp, htp, selectForwarded, hxff, headerFallback, hxri,
        transportAddress, hip, hra]
  constructor
  · simp [deriveKey, hgen, hbu, hci]
    decide
  · cases hc : (consume st (deriveKey sec req opts) opts.pointsToConsume).1 with
    | error rej =>
      exact Or.inr ⟨toRateLimitExceeded rej,
        by simp [checkRateLimit_eq, hc, Except.mapError], rfl, rfl⟩
    | ok u => exact Or.inl ⟨u, by simp [checkRateLimit_eq, hc, Except.mapError]⟩

/-- Claim C9 witness: the empty request derives "ip:unknown" and the gate
completes. -/
theorem missing_ip_unknown_key_w :
    deriveKey {} {} {} = "ip:unknown" ∧
    ((∃ u, (checkRateLimit {} ⟨{}, []⟩ {} {}).1 = Except.ok u) ∨
     (∃ e, (checkRateLimit {} ⟨{}, []⟩ {} {}).1 = Except.error e ∧
       e.message = "Too many requests. Please try again later." ∧ e.statusCode = 429)) :=
  missing_ip_unknown_key {} ⟨{}, []⟩ {} {} rfl rfl rfl rfl rfl rfl

/-- When the depth lands inside the split chain and the selected entry is
non-empty, that entry is selected. -/
theorem selectForwarded_of_lt (depth : Nat) (xff : String)
    (hdepth : depth < (splitTrim xff).length)
    (hne : (splitTrim xff).getD ((splitTrim xff).length - 1 - depth) "" ≠ "") :
    selectForwarded depth (some xff) =
      some ((splitTrim xff).getD ((splitTrim xff).length - 1 - depth) "") := by
  have htn : ((((splitTrim xff).length : Int)) - 1 - (depth : Int)).toNat =
      (splitTrim xff).length - 1 - depth := by omega
  simp only [selectForwarded]
  split
  · rw [htn]
    rw [if_neg hne]
  · rename_i h
    exact absurd (by omega) h

/-- When the depth reaches past the split chain, the header is not used. -/
theorem selectForwarded_of_ge (depth : Nat) (xff : String)
    (hge : (splitTrim xff).length ≤ depth) :
    selectForwarded depth (some xff) = none := by
  simp only [selectForwarded]
  split
  · rename_i h
    exact absurd h (by omega)
  · rfl

/-- Claim C2: with trustProxy=true and an X-Forwarded-For header, the client
IP is the entry at zero-based index count - 1 - trustedProxyDepth of the
split-and-trimmed chain; an out-of-range index leaves the header unused and
falls through to the X-Real-IP / transport fallback. -/
theorem clientIp_xff_depth_selection
    (sec : SecurityConfig) (req : Request) (xff : String)
    (htp : sec.trustProxy = true)
    (hxff : assocLookup "x-forwarded-for" req.headers = some xff) :
    (sec.trustedProxyDepth < (splitTrim xff).length →
      (splitTrim xff).getD ((splitTrim xff).length - 1 - sec.trustedProxyDepth) "" ≠ "" →
      clientIp sec req =
        (splitTrim xff).getD ((splitTrim xff).length - 1 - sec.trustedProxyDepth) "") ∧
    ((splitTrim xff).length ≤ sec.trustedProxyDepth →
      clientIp sec req = headerFallback req) := by
  constructor
  · intro hd hne
    simp [clientIp, htp, hxff, selectForwarded_of_lt sec.trustedProxyDepth xff hd hne]
  · intro hge
    simp [clientIp, htp, hxff, selectForwarded_of_ge sec.trustedProxyDepth xff hge]

/-- Claim C2 witness: on the chain "1.1.1.1, 2.2.2.2, 3.3.3.3", depth 0
selects 3.3.3.3 and depth 2 selects 1.1.1.1. -/
theorem clientIp_xff_depth_selection_w :
    clientIp { trustProxy := true, trustedProxyDepth := 0 }
        { headers := [("x-forwarded-for", "1.1.1.1, 2.2.2.2, 3.3.3.3")] } = "3.3.3.3" ∧
    clientIp { trustProxy := true, trustedProxyDepth := 2 }
        { headers := [("x-forwarded-for", "1.1.1.1, 2.2.2.2, 3.3.3.3")] } = "1.1.1.1" := by
  constructor
  · exact ((clientIp_xff_depth_selection { trustProxy := true, trustedProxyDepth := 0 }
        { headers := [("x-forwarded-for", "1.1.1.1, 2.2.2.2, 3.3.3.3")] }
        "1.1.1.1, 2.2.2.2, 3.3.3.3" rfl rfl).1 (by decide) (by decide)).trans (by decide)
  · exact ((clientIp_xff_depth_selection { trustProxy := true, trustedProxyDepth := 2 }
        { headers := [("x-forwarded-for", "1.1.1.1, 2.2.2.2, 3.3.3.3")] }
        "1.1.1.1, 2.2.2.2, 3.3.3.3" rfl rfl).1 (by decide) (by decide)).trans (by decide)

/-- Claim C3: with a one-point limiter, a successful gate call followed by a
second call on the same derived key rejects with the fixed message, code
429, and retryAfter equal to the ceiling of msBeforeNext over 1000, at least
one second for a positive msBeforeNext. -/
theorem second_call_rejected
    (sec : SecurityConfig) (st : LimiterState) (r1 r2 : Request) (o1 o2 : Options)
    (hpts : st.config.points = 1)
    (hdur : 1 ≤ st.config.duration)
    (hp1 : o1.pointsToConsume = 1) (hp2 : o2.pointsToConsume = 1)
    (hkey : deriveKey sec r1 o1 = deriveKey sec r2 o2)
    (hok : ∃ u, (checkRateLimit sec st r1 o1).1 = Except.ok u) :
    ∃ e, (checkRateLimit sec (checkRateLimit sec st r1 o1).2 r2 o2).1 = Except.error e ∧
      e.message = "Too many requests. Please try again later." ∧
      e.statusCode = 429 ∧
      e.retryAfter = (st.config.duration * 1000 + 999) / 1000 ∧
      1 ≤ e.retryAfter := by
  obtain ⟨u, hu⟩ := hok
  have hle : usedPoints st (deriveKey sec r1 o1) + o1.pointsToConsume ≤ st.config.points := by
    by_contra hgt
    push_neg at hgt
    rw [checkRateLimit_eq, consume_fst_of_gt st (deriveKey sec r1 o1) o1.pointsToConsume hgt]
      at hu
    simp [Except.mapError] at hu
  have hused0 : usedPoints st (deriveKey sec r1 o1) = 0 := by
    rw [hp1] at hle
    omega
  have hst1 : (checkRateLimit sec st r1 o1).2 = (consume st (deriveKey sec r1 o1) o1.pointsToConsume).2 := rfl
  have hcfg : (checkRateLimit sec st r1 o1).2.config = st.config := by
    rw [hst1, consume_snd]
  have hup1 : usedPoints (checkRateLimit sec st r1 o1).2 (deriveKey sec r1 o1) = 1 := by
    rw [hst1, usedPoints_consume_self, hused0, hp1]
  have hgt2 : (checkRateLimit sec st r1 o1).2.config.points <
      usedPoints (checkRateLimit sec st r1 o1).2 (deriveKey sec r2 o2) + o2.pointsToConsume := by
    rw [← hkey, hup1, hp2, hcfg, hpts]
    omega
  refine ⟨toRateLimitExceeded
      { remainingPoints := (checkRateLimit sec st r1 o1).2.config.points -
          (usedPoints (checkRateLimit sec st r1 o1).2 (deriveKey sec r2 o2) + o2.pointsToConsume)
        msBeforeNext := (checkRateLimit sec st r1 o1).2.config.duration * 1000 }, ?_, rfl, rfl, ?_, ?_⟩
  · rw [checkRateLimit_eq, consume_fst_of_gt _ _ _ hgt2]
    simp [Except.mapError]
  · show ((checkRateLimit sec st r1 o1).2.config.duration * 1000 + 999) / 1000 =
      (st.config.duration * 1000 + 999) / 1000
    rw [hcfg]
  · show 1 ≤ ((checkRateLimit sec st r1 o1).2.config.duration * 1000 + 999) / 1000
    rw [hcfg]
    omega

/-- Claim C3 witness: a one-point limiter admits a first call from
192.168.1.100 and rejects the second with the full failure shape. -/
theorem second_call_rejected_w :
    ∃ e, (checkRateLimit {}
        (checkRateLimit {} ⟨{ points := 1 }, []⟩ { ip := some "192.168.1.100" } {}).2
        { ip := some "192.168.1.100" } {}).1 = Except.error e ∧
      e.message = "Too many requests. Please try again later." ∧
      e.statusCode = 429 ∧
      e.retryAfter = (60 * 1000 + 999) / 1000 ∧
      1 ≤ e.retryAfter :=
  second_call_rejected {} ⟨{ points := 1 }, []⟩
    { ip := some "192.168.1.100" } { ip := some "192.168.1.100" } {} {}
    rfl (by decide) rfl rfl rfl ⟨{ remainingPoints := 0, msBeforeNext := 60000 }, rfl⟩

/-- Claim C7: after the gate rejects, resetting the same derived key removes
all recorded usage and an immediately following gate call succeeds. -/
theorem reset_then_succeed
    (sec : SecurityConfig) (st : LimiterState) (req : Request) (opts : Options)
    (hpc : opts.pointsToConsume ≤ st.config.points)
    (_hexh : ∃ e, (checkRateLimit sec st req opts).1 = Except.error e) :
    usedPoints (resetRateLimit sec (checkRateLimit sec st req opts).2 req opts)
        (deriveKey sec req opts) = 0 ∧
    ∃ u, (checkRateLimit sec
        (resetRateLimit sec (checkRateLimit sec st req opts).2 req opts) req opts).1 =
      Except.ok u := by
  have hz : usedPoints (resetRateLimit sec (checkRateLimit sec st req opts).2 req opts)
      (deriveKey sec req opts) = 0 := by
    simp [resetRateLimit, capDelete, usedPoints, assocLookup_eraseKey_self]
  have hcfg : (resetRateLimit sec (checkRateLimit sec st req opts).2 req opts).config =
      st.config := by
    have h1 : (checkRateLimit sec st req opts).2.config = st.config := by
      rw [checkRateLimit_eq, consume_snd]
    simp [resetRateLimit, capDelete, h1]
  have hle : usedPoints (resetRateLimit sec (checkRateLimit sec st req opts).2 req opts)
        (deriveKey sec req opts) + opts.pointsToConsume ≤
      (resetRateLimit sec (checkRateLimit sec st req opts).2 req opts).config.points := by
    rw [hz, hcfg]
    simpa using hpc
  refine ⟨hz,
    ⟨{ remainingPoints :=
          (resetRateLimit sec (checkRateLimit sec st req opts).2 req opts).config.points -
            (usedPoints (resetRateLimit sec (checkRateLimit sec st req opts).2 req opts)
                (deriveKey sec req opts) + opts.pointsToConsume)
       msBeforeNext :=
          (resetRateLimit sec (checkRateLimit sec st req opts).2 req opts).config.duration *
            1000 }, ?_⟩⟩
  rw [checkRateLimit_eq, consume_fst_of_le _ _ _ hle]
  simp [Except.mapError]

/-- Claim C7 witness: an exhausted one-point bucket for 10.0.0.30 is usable
again right after a reset. -/
theorem reset_then_succeed_w :
    usedPoints (resetRateLimit {}
        (checkRateLimit {} ⟨{ points := 1 }, [("ip:10.0.0.30", 1)]⟩
          { ip := some "10.0.0.30" } {}).2
        { ip := some "10.0.0.30" } {}) (deriveKey {} { ip := some "10.0.0.30" } {}) = 0 ∧
    ∃ u, (checkRateLimit {} (resetRateLimit {}
        (checkRateLimit {} ⟨{ points := 1 }, [("ip:10.0.0.30", 1)]⟩
          { ip := some "10.0.0.30" } {}).2
        { ip := some "10.0.0.30" } {}) { ip := some "10.0.0.30" } {}).1 = Except.ok u :=
  reset_then_succeed {} ⟨{ points := 1 }, [("ip:10.0.0.30", 1)]⟩
    { ip := some "10.0.0.30" } {} (by decide)
    ⟨{ message := "Too many requests. Please try again later."
       statusCode := 429
       retryAfter := 60 }, rfl⟩

/-- Claim C8: peek returns the unchanged limiter state, so a subsequent gate
call sees the same quota; it reports none exactly when the derived key has
no recorded usage and the recorded usage otherwise. -/
theorem peek_without_consuming
    (sec : SecurityConfig) (st : LimiterState) (req : Request) (opts : Options) :
    (getRemainingPoints sec st req opts).2 = st ∧
    (∀ (r2 : Request) (o2 : Options),
      checkRateLimit sec (getRemainingPoints sec st req opts).2 r2 o2 =
        checkRateLimit sec st r2 o2) ∧
    (assocLookup (deriveKey sec req opts) st.used = none →
      (getRemainingPoints sec st req opts).1 = none) ∧
    (∀ u, assocLookup (deriveKey sec req opts) st.used = some u →
      (getRemainingPoints sec st req opts).1 =
        some { remaining := st.config.points - u, resetMs := st.config.duration * 1000 }) := by
  have hsnd : (getRemainingPoints sec st req opts).2 = st := by
    simp only [getRemainingPoints]
    split <;> rfl
  refine ⟨hsnd, fun r2 o2 => by rw [hsnd], ?_, ?_⟩
  · intro h
    simp [getRemainingPoints, capGet, h]
  · intro u h
    simp [getRemainingPoints, capGet, h]

/-- Claim C8 witness: with 2 of 10 points consumed under ip:10.0.0.20, peek
reports 8 remaining without touching the bucket. -/
theorem peek_without_consuming_w :
    (getRemainingPoints {} ⟨{ points := 10 }, [("ip:10.0.0.20", 2)]⟩
        { ip := some "10.0.0.20" } {}).1 =
      some { remaining := 8, resetMs := 60000 } :=
  (peek_without_consuming {} ⟨{ points := 10 }, [("ip:10.0.0.20", 2)]⟩
    { ip := some "10.0.0.20" } {}).2.2.2 2 rfl

/-- A gated wrapped call always leaves the limiter in the state of its
consume, whether the gate admits or rejects and whether the base method
exists. -/
theorem wrappedCall_snd_of_mem {σ α : Type} (sec : SecurityConfig) (wopts : WrapOptions)
    (res : Resource σ α) (m : Method) (req : Request) (st : LimiterState) (s : σ)
    (hm : m ∈ wopts.methods) :
    (wrappedCall sec wopts res m req st s).2.1 =
      (consume st (deriveKey sec req wopts.gateOptions)
        wopts.gateOptions.pointsToConsume).2 := by
  simp only [wrappedCall]
  rw [if_pos hm]
  rcases hc : checkRateLimit sec st req wopts.gateOptions with ⟨r, st1⟩
  have h2 : st1 = (consume st (deriveKey sec req wopts.gateOptions)
      wopts.gateOptions.pointsToConsume).2 := by
    have h3 := congrArg Prod.snd hc
    rw [checkRateLimit_eq] at h3
    exact h3.symm
  cases r with
  | error e => simp [h2]
  | ok u =>
    cases hh : res.handler m with
    | none => simp [hh, h2]
    | some f => simp [hh, h2]

/-- Iterating a gated method accumulates one unit of consumption per call —
also across rejected calls — and keeps the limiter configuration. -/
theorem callTimes_used {σ α : Type} (sec : SecurityConfig) (wopts : WrapOptions)
    (res : Resource σ α) (m : Method) (req : Request)
    (hm : m ∈ wopts.methods) (hptc : wopts.gateOptions.pointsToConsume = 1) :
    ∀ (n : Nat) (st : LimiterState) (s : σ),
      usedPoints (callTimes sec wopts res m req n st s).1
          (deriveKey sec req wopts.gateOptions) =
        usedPoints st (deriveKey sec req wopts.gateOptions) + n ∧
      (callTimes sec wopts res m req n st s).1.config = st.config := by
  intro n
  induction n with
  | zero =>
    intro st s
    exact ⟨rfl, rfl⟩
  | succ k ih =>
    intro st s
    have hstep := wrappedCall_snd_of_mem sec wopts res m req st s hm
    constructor
    · simp only [callTimes]
      rw [(ih _ _).1, hstep, usedPoints_consume_self, hptc]
      omega
    · simp only [callTimes]
      rw [(ih _ _).2, hstep, consume_snd]

/-- A gated wrapped call within the quota succeeds. -/
theorem wrappedCall_ok_of_le {σ α : Type} (sec : SecurityConfig) (wopts : WrapOptions)
    (res : Resource σ α) (m : Method) (req : Request) (st : LimiterState) (s : σ)
    (hm : m ∈ wopts.methods)
    (hle : usedPoints st (deriveKey sec req wopts.gateOptions) +
        wopts.gateOptions.pointsToConsume ≤ st.config.points) :
    ∃ u, (wrappedCall sec wopts res m req st s).1 = Except.ok u := by
  simp only [wrappedCall]
  rw [if_pos hm]
  rcases hc : checkRateLimit sec st req wopts.gateOptions with ⟨r, st1⟩
  have h1 : r = Except.ok
      { remainingPoints := st.config.points -
          (usedPoints st (deriveKey sec req wopts.gateOptions) +
            wopts.gateOptions.pointsToConsume)
        msBeforeNext := st.config.duration * 1000 } := by
    have h3 : Except.mapError toRateLimitExceeded
        (consume st (deriveKey sec req wopts.gateOptions)
          wopts.gateOptions.pointsToConsume).1 = r := congrArg Prod.fst hc
    rw [← h3, consume_fst_of_le _ _ _ hle]
    simp [Except.mapError]
  subst h1
  cases hh : res.handler m with
  | none => exact ⟨none, by simp [hh]⟩
  | some f => exact ⟨some (f req s).1, by simp [hh]⟩

/-- A gated wrapped call beyond the quota fails with the 429 signal. -/
theorem wrappedCall_err_of_gt {σ α : Type} (sec : SecurityConfig) (wopts : WrapOptions)
    (res : Resource σ α) (m : Method) (req : Request) (st : LimiterState) (s : σ)
    (hm : m ∈ wopts.methods)
    (hgt : st.config.points < usedPoints st (deriveKey sec req wopts.gateOptions) +
        wopts.gateOptions.pointsToConsume) :
    ∃ e, (wrappedCall sec wopts res m req st s).1 = Except.error e ∧
      e.statusCode = 429 ∧
      e.message = "Too many requests. Please try again later." := by
  simp only [wrappedCall]
  rw [if_pos hm]
  rcases hc : checkRateLimit sec st req wopts.gateOptions with ⟨r, st1⟩
  have h1 : r = Except.error (toRateLimitExceeded
      { remainingPoints := st.config.points -
          (usedPoints st (deriveKey sec req wopts.gateOptions) +
            wopts.gateOptions.pointsToConsume)
        msBeforeNext := st.config.duration * 1000 }) := by
    have h3 : Except.mapError toRateLimitExceeded
        (consume st (deriveKey sec req wopts.gateOptions)
          wopts.gateOptions.pointsToConsume).1 = r := congrArg Prod.fst hc
    rw [← h3, consume_fst_of_gt _ _ _ hgt]
    simp [Except.mapError]
  subst h1
  exact ⟨_, rfl, rfl, rfl⟩

/-- Claim C4: wrapping with methods=[post] leaves every other method — get
in particular — exactly the unwrapped pass-through, which always succeeds
whatever the limiter state holds, while post is gated: each of the first
`points` posts succeeds and every post beyond the quota fails with 429. -/
theorem post_only_gating {σ α : Type}
    (sec : SecurityConfig) (res : Resource σ α) (wopts : WrapOptions)
    (req : Request) (st : LimiterState) (s : σ)
    (hms : wopts.methods = [Method.post])
    (hptc : wopts.gateOptions.pointsToConsume = 1)
    (h0 : usedPoints st (deriveKey sec req wopts.gateOptions) = 0) :
    (∀ (m : Method), m ≠ Method.post → ∀ (st2 : LimiterState) (s2 : σ),
      wrappedCall sec wopts res m req st2 s2 = passThroughCall res m req st2 s2 ∧
      ∃ r, (passThroughCall res m req st2 s2).1 = Except.ok r) ∧
    (∀ (n : Nat) (s2 : σ), n + 1 ≤ st.config.points →
      ∃ u, (wrappedCall sec wopts res Method.post req
        (callTimes sec wopts res Method.post req n st s).1 s2).1 = Except.ok u) ∧
    (∀ (n : Nat) (s2 : σ), st.config.points ≤ n →
      ∃ e, (wrappedCall sec wopts res Method.post req
        (callTimes sec wopts res Method.post req n st s).1 s2).1 = Except.error e ∧
        e.statusCode = 429 ∧
        e.message = "Too many requests. Please try again later.") := by
  have hmem : Method.post ∈ wopts.methods := by
    rw [hms]
    exact List.mem_singleton_self _
  refine ⟨?_, ?_, ?_⟩
  · intro m hne st2 s2
    have hnm : m ∉ wopts.methods := by
      rw [hms]
      simpa using hne
    refine ⟨by simp only [wrappedCall]; rw [if_neg hnm], ?_⟩
    cases hh : res.handler m with
    | none => exact ⟨none, by simp [passThroughCall, hh]⟩
    | some f => exact ⟨some (f req s2).1, by simp [passThroughCall, hh]⟩
  · intro n s2 hn
    have hct := callTimes_used sec wopts res Method.post req hmem hptc n st s
    refine wrappedCall_ok_of_le sec wopts res Method.post req _ s2 hmem ?_
    rw [hct.1, h0, hptc, hct.2]
    omega
  · intro n s2 hn
    have hct := callTimes_used sec wopts res Method.post req hmem hptc n st s
    refine wrappedCall_err_of_gt sec wopts res Method.post req _ s2 hmem ?_
    rw [hct.1, h0, hptc, hct.2]
    omega

/-- Claim C4 witness: with a one-point limiter gating only post, the post
after the first one is rejected with 429. -/
theorem post_only_gating_w :
    ∃ e, (wrappedCall {} { methods := [Method.post] }
        (⟨fun _ => some fun _ s => (1, s)⟩ : Resource Nat Nat) Method.post
        { ip := some "10.0.0.12" }
        (callTimes {} { methods := [Method.post] }
          (⟨fun _ => some fun _ s => (1, s)⟩ : Resource Nat Nat) Method.post
          { ip := some "10.0.0.12" } 1 ⟨{ points := 1 }, []⟩ 0).1 0).1 = Except.error e ∧
      e.statusCode = 429 ∧
      e.message = "Too many requests. Please try again later." :=
  (post_only_gating {} (⟨fun _ => some fun _ s => (1, s)⟩ : Resource Nat Nat)
    { methods := [Method.post] } { ip := some "10.0.0.12" }
    ⟨{ points := 1 }, []⟩ 0 rfl rfl rfl).2.2 1 0 (by decide)

/-- Claim C5: whenever the gate of a wrapped method rejects, the wrapped
call fails with that very signal, the limiter keeps the gate's state, and
the handler-local state is untouched — the original handler body never
runs. -/
theorem rejected_gate_skips_handler {σ α : Type}
    (sec : SecurityConfig) (wopts : WrapOptions) (res : Resource σ α) (m : Method)
    (req : Request) (st st1 : LimiterState) (s : σ) (e : RateLimitExceeded)
    (hm : m ∈ wopts.methods)
    (hrej : checkRateLimit sec st req wopts.gateOptions = (Except.error e, st1)) :
    wrappedCall sec wopts res m req st s = (Except.error e, st1, s) := by
  simp only [wrappedCall]
  rw [if_pos hm, hrej]

/-- Claim C5 witness: a wrapped get whose gate rejects propagates the 429
signal and leaves the handler-local counter at 5. -/
theorem rejected_gate_skips_handler_w :
    wrappedCall {} {} (⟨fun _ => some fun _ s => (7, s + 1)⟩ : Resource Nat Nat)
        Method.get { ip := some "9.9.9.9" } ⟨{ points := 1 }, [("ip:9.9.9.9", 1)]⟩ 5 =
      (Except.error
        { message := "Too many requests. Please try again later."
          statusCode := 429
          retryAfter := 60 },
       ⟨{ points := 1 }, [("ip:9.9.9.9", 2)]⟩, 5) :=
  rejected_gate_skips_handler {} {} (⟨fun _ => some fun _ s => (7, s + 1)⟩ : Resource Nat Nat)
    Method.get { ip := some "9.9.9.9" } ⟨{ points := 1 }, [("ip:9.9.9.9", 1)]⟩
    ⟨{ points := 1 }, [("ip:9.9.9.9", 2)]⟩ 5
    { message := "Too many requests. Please try again later."
      statusCode := 429
      retryAfter := 60 }
    (by decide) rfl

/-- Claim C10: the exported rateLimit is behaviorally identical to the gate:
same usage result, same consumption on the same bucket, same failure signal,
on every input. -/
theorem rateLimit_eq_checkRateLimit :
    ∀ (sec : SecurityConfig) (st : LimiterState) (req : Request) (opts : Options),
      rateLimit sec st req opts = checkRateLimit sec st req opts :=
  fun _ _ _ _ => rfl

end HarperRateLimit
